import Mathlib

/-!
Shallow embedding of the copytrade-base repository: the swap classifier
(src/src/decoder.ts), the position ledger, swap handler and dedup gate
(src/unnamed/part_000), the sell executor and nonce sequencer
(src/src/trader.ts), and the receipt-based token resolver
(src/unnamed/part_000, resolveTokenOut).  JavaScript Maps and Sets are
embedded as association lists and insertion-ordered duplicate-free lists;
thrown exceptions become Option results; awaited external calls become an
explicit environment record plus an effect trace.
-/

set_option maxRecDepth 40000

/-- Lowercase a string character by character, mirroring
JavaScript's String.prototype.toLowerCase on ASCII data. -/
def lower (s : String) : String := String.mk (s.toList.map Char.toLower)

/-- Association-list lookup, mirroring JavaScript Map.prototype.get. -/
def getMap {α : Type} (m : List (String × α)) (k : String) : Option α :=
  match m with
  | [] => none
  | (k1, v) :: rest => if k1 = k then some v else getMap rest k

/-- Association-list update, mirroring JavaScript Map.prototype.set. -/
def setMap {α : Type} (m : List (String × α)) (k : String) (v : α) : List (String × α) :=
  match m with
  | [] => [(k, v)]
  | (k1, v1) :: rest => if k1 = k then (k, v) :: rest else (k1, v1) :: setMap rest k v

-- ─────────────────────────────────────────────
-- Swap classifier (src/src/decoder.ts, lines 1-95: the variant taking a
-- destination address and consulting a router allow-list)
-- ─────────────────────────────────────────────

/-- The fixed selector table of src/src/decoder.ts (SWAP_SELECTORS). -/
def swapSelectors : List (String × String) := [
  ("0x5ae401dc", "Uniswap V3 - multicall"),
  ("0x24856bc3", "Uniswap V3 - execute"),
  ("0x3593564c", "Uniswap Universal Router - execute"),
  ("0x04e45aaf", "Uniswap V3 - exactInputSingle"),
  ("0xdb3e2198", "Uniswap V3 - exactOutputSingle"),
  ("0xb858183f", "Uniswap V3 - exactInput"),
  ("0x09b81346", "Uniswap V3 - exactOutput"),
  ("0x8a657e67", "Aerodrome - swapExactTokensForTokens"),
  ("0x38ed1739", "Aerodrome - swapExactTokensForTokens (v2)"),
  ("0x7ff36ab5", "Aerodrome - swapExactETHForTokens"),
  ("0x18cbafe5", "Aerodrome - swapExactTokensForETH"),
  ("0xd9627aa4", "0x - sellToUniswap"),
  ("0x415565b0", "0x - transformERC20"),
  ("0xf7fcd384", "0x - sellTokenForTokenToUniswapV3"),
  ("0x7c025200", "1inch - swap"),
  ("0xe449022e", "1inch - uniswapV3Swap"),
  ("0x2e95b6c8", "1inch - unoswap"),
  ("0xeffbec13", "GMGN/OKX - unxswapByOrderId"),
  ("0x0b68e4e8", "GMGN/OKX - smartSwapByOrderId"),
  ("0x2e1a7d4d", "GMGN/OKX - withdrawETH"),
  ("0xcae6a6b3", "GMGN/OKX - multicall")]

/-- The fixed router allow-list of src/src/decoder.ts (KNOWN_ROUTERS),
already lowercase in the source. -/
def knownRouters : List String := [
  ("0x4409921ae43a39a11d90f7b7f96cfd0b8093d9fc"),
  ("0x77449ff075c0a385796da0762bcb46fd5cc884c6"),
  ("0xcf77a3ba9a5ca399b7c97c74d54e5b1beb874e43"),
  ("0x3fc91a3afd70395cd496c647d5a6cc9d4b2b7fad"),
  ("0x1111111254eeb25477b68fb85ed929f73a960582"),
  ("0x1985b39d5e55940f2e2b2ded79a23b9e5a25f4ff")]

/-- Result of the swap classifier (decoder.ts SwapInfo). -/
structure SwapInfo where
  isSwap : Bool
  protocol : Option String
  selector : Option String
  tokenIn : Option String
  tokenOut : Option String
  amountIn : Option Nat
deriving DecidableEq, Repr

/-- The all-false classification returned for non-swaps. -/
def noSwapInfo : SwapInfo := ⟨false, none, none, none, none, none⟩

/-- Transaction fields consumed by decodeSwap. -/
structure DecodeTx where
  data : String
  value : Nat
  dest : Option String

def isHexCh (c : Char) : Bool :=
  c.isDigit || (('a' ≤ c) && (c ≤ 'f')) || (('A' ≤ c) && (c ≤ 'F'))

def hexChVal (c : Char) : Nat :=
  if c.isDigit then c.toNat - ('0').toNat
  else if ('a' ≤ c) && (c ≤ 'f') then c.toNat - ('a').toNat + 10
  else if ('A' ≤ c) && (c ≤ 'F') then c.toNat - ('A').toNat + 10
  else 0

def hexValue (cs : List Char) : Nat :=
  cs.foldl (fun acc c => acc * 16 + hexChVal c) 0

/-- The leading ten characters of the input data, lowercased: the
function selector as decoder.ts computes it (data.slice(0,10).toLowerCase()). -/
def selectorOf (data : String) : String := lower (String.mk (data.toList.take 10))

/-- Strict ABI decoding of a Uniswap V3 exactInputSingle call
(decoder.ts lines 68-86).  The ethers Interface decode succeeds exactly on a
well-formed payload: selector plus seven 32-byte words (458 hex characters in
total), every character a hex digit, the fee word within uint24 and the price
limit word within uint160; a throwing decode is embedded as none. -/
def decodeExactInputSingle (data : String) : Option (String × String × Nat) :=
  let cs := data.toList
  if data.length = 458 && (cs.drop 2).all isHexCh
      && hexValue ((cs.drop 138).take 64) < 2 ^ 24
      && hexValue ((cs.drop 394).take 64) < 2 ^ 160 then
    some ("0x" ++ String.mk ((cs.drop 34).take 40),
          "0x" ++ String.mk ((cs.drop 98).take 40),
          hexValue ((cs.drop 266).take 64))
  else none

/-- The swap classifier decodeSwap of src/src/decoder.ts: a pure total
function from transaction bytes, value and destination to a classification.
Empty or shorter-than-selector input is not a swap; a known selector is a
swap (with token decoding attempted only for exactInputSingle, degrading to
unknown tokens when decoding fails); an unknown selector is a swap only when
the destination is on the router allow-list. -/
def decodeSwap (tx : DecodeTx) : SwapInfo :=
  if tx.data.length < 10 then noSwapInfo
  else
    let sel := selectorOf tx.data
    match getMap swapSelectors sel with
    | some proto =>
      if sel = ("0x04e45aaf") then
        match decodeExactInputSingle tx.data with
        | some r => ⟨true, some proto, some sel, some r.1, some r.2.1, some r.2.2⟩
        | none => ⟨true, some proto, some sel, none, none, none⟩
      else ⟨true, some proto, some sel, none, none, none⟩
    | none =>
      match tx.dest with
      | some d =>
        if lower d ∈ knownRouters then ⟨true, some ("Known Router"), some sel, none, none, none⟩
        else noSwapInfo
      | none => noSwapInfo


-- ─────────────────────────────────────────────
-- Position ledger and bot state (src/unnamed/part_000, lines 36-97)
-- ─────────────────────────────────────────────

/-- In-memory state of the monitor process: the per-wallet cooldown map
(lastTrade), the processed-hash dedup set (processedTxs) and the position
ledger (openPositions, a Map from whale wallet to an insertion-ordered
JavaScript Set of token addresses). -/
structure BotState where
  lastTrade : List (String × Nat)
  processedTxs : List String
  openPositions : List (String × List String)
deriving DecidableEq, Repr

/-- The state of a fresh run with an empty ledger. -/
def initState : BotState := ⟨[], [], []⟩

/-- addPosition of part_000 (lines 78-85): lowercase both addresses, create
the wallet's Set if absent, and add the token; Set.add keeps the original
entry (and its position) when the token is already present, and appends an
absent token at the end of the insertion order. -/
def addPosition (st : BotState) (whale token : String) : BotState :=
  let addr := lower whale
  let tok := lower token
  let cur := (getMap st.openPositions addr).getD []
  let cur1 := if tok ∈ cur then cur else cur ++ [tok]
  { st with openPositions := setMap st.openPositions addr cur1 }

/-- removePosition of part_000 (lines 87-93): delete the lowercased token
from the wallet's Set, a no-op when the wallet has no Set. -/
def removePosition (st : BotState) (whale token : String) : BotState :=
  let addr := lower whale
  let tok := lower token
  match getMap st.openPositions addr with
  | none => st
  | some cur => { st with openPositions := setMap st.openPositions addr (cur.erase tok) }

/-- getPositions of part_000 (lines 95-97): the wallet's open tokens in
Set insertion order, empty when absent. -/
def getPositions (st : BotState) (whale : String) : List String :=
  (getMap st.openPositions (lower whale)).getD []


-- ─────────────────────────────────────────────
-- Sell executor (src/src/trader.ts, lines 409-513: the variant with
-- fraction, retries and retryDelayMs parameters)
-- ─────────────────────────────────────────────

/-- Outcome of one attempt of the sell loop, as decided by the external
world: the submitted transaction confirms, it reverts, the HTTP request
round trip throws, the quote carries no transaction payload, or the
token approval flow fails. -/
inductive AttemptOutcome where
  | ok (buyEth : Nat)
  | reverted
  | requestError (msg : String)
  | noTransaction
  | approvalFailed
deriving DecidableEq, Repr

/-- Terminal status of a trade, mirroring trader.ts TradeResult.status. -/
inductive SellStatus where
  | ok
  | failed
  | skipped
deriving DecidableEq, Repr

structure SellResult where
  status : SellStatus
  errorMsg : Option String
deriving DecidableEq, Repr

/-- Outcome of the buy executor executeCopyTrade, as decided by the
external world. -/
inductive BuyOutcome where
  | ok
  | failed (msg : String)
  | skipped
deriving DecidableEq, Repr

/-- External world consulted by the handlers: the managed account's native
balance, the buy executor's outcome, per-token on-chain balances, and the
outcome of each numbered sell attempt per token. -/
structure Env where
  nativeBalance : Nat
  buyResult : BuyOutcome
  tokenBalance : String → Nat
  sellAttempt : String → Nat → AttemptOutcome

/-- Observable external actions of a run: RPC balance fetches, the
quote-and-submit cycles, notifications, retry sleeps and the scheduling of
deferred receipt resolution. -/
inductive Effect where
  | fetchNativeBalance
  | notifyInsufficientBalance
  | buyCycle (tokenOut : String)
  | notifyBuyExecuted (whale tokenOut : String)
  | notifyBuyFailed (whale tokenOut reason : String)
  | notifySellDetected (whale tokenIn txHash : String)
  | notifySellExecuted (whale tokenIn : String)
  | notifySellFailed (whale tokenIn reason : String)
  | fetchTokenBalance (token : String)
  | sellSubmit (token : String) (sellAmount : Nat)
  | sleepMs (ms : Nat)
  | scheduleReceiptResolve (txHash : String)
deriving DecidableEq, Repr

def isSellSubmitEff : Effect → Bool
  | .sellSubmit _ _ => true
  | _ => false

def isBuyCycleEff : Effect → Bool
  | .buyCycle _ => true
  | _ => false

/-- The attempt loop of executeCopySell (trader.ts lines 445-510):
attempt is the 1-based attempt counter, fuel the number of attempts still
allowed (initially the retries parameter).  A revert or request error on a
non-final attempt sleeps retryDelayMs and retries; on the final attempt it
returns failed.  A quote without a transaction payload or a failed approval
returns failed immediately, without retrying.  The fuel-exhausted fallthrough
mirrors the final return of line 512. -/
def sellAttemptLoop (env : Env) (tokenIn : String) (sellBalance retryDelayMs attempt : Nat) :
    Nat → SellResult × List Effect
  | 0 => (⟨.failed, some ("max retries exceeded")⟩, [])
  | fuel + 1 =>
    match env.sellAttempt tokenIn attempt with
    | .ok _ => (⟨.ok, none⟩, [.sellSubmit tokenIn sellBalance])
    | .reverted =>
      if fuel = 0 then (⟨.failed, some ("tx reverted")⟩, [.sellSubmit tokenIn sellBalance])
      else
        let r := sellAttemptLoop env tokenIn sellBalance retryDelayMs (attempt + 1) fuel
        (r.1, .sellSubmit tokenIn sellBalance :: .sleepMs retryDelayMs :: r.2)
    | .requestError m =>
      if fuel = 0 then (⟨.failed, some m⟩, [.sellSubmit tokenIn sellBalance])
      else
        let r := sellAttemptLoop env tokenIn sellBalance retryDelayMs (attempt + 1) fuel
        (r.1, .sellSubmit tokenIn sellBalance :: .sleepMs retryDelayMs :: r.2)
    | .noTransaction =>
      (⟨.failed, some ("0x API returned no transaction")⟩, [.sellSubmit tokenIn sellBalance])
    | .approvalFailed =>
      (⟨.failed, some ("Falha na aprovacao do token")⟩, [.sellSubmit tokenIn sellBalance])

/-- executeCopySell of trader.ts (lines 409-513).  The on-chain balance is
fetched once; a zero balance short-circuits to skipped.  The amount sold is
the whole balance when fraction is at least 1, otherwise the floored
millionth-precision fraction of it; a zero sized amount also skips.  The
caller passes fraction, retries and retryDelayMs explicitly; the source's
parameter defaults are 1.0, 3 and 5000. -/
def executeCopySell (env : Env) (tokenIn : String) (fraction : ℚ) (retries retryDelayMs : Nat) :
    SellResult × List Effect :=
  let totalBalance := env.tokenBalance tokenIn
  if totalBalance = 0 then (⟨.skipped, none⟩, [.fetchTokenBalance tokenIn])
  else
    let sellBalance := if 1 ≤ fraction then totalBalance
      else totalBalance * (Int.toNat (Rat.floor (fraction * 1000000))) / 1000000
    if sellBalance = 0 then (⟨.skipped, none⟩, [.fetchTokenBalance tokenIn])
    else
      let r := sellAttemptLoop env tokenIn sellBalance retryDelayMs 1 retries
      (r.1, .fetchTokenBalance tokenIn :: r.2)

-- ─────────────────────────────────────────────
-- Swap handler (src/unnamed/part_000, lines 99-247)
-- ─────────────────────────────────────────────

/-- Startup configuration of part_000: the lowercased wrapped-native
address (line 33), the USD trade size (line 32) and the lowercased target
wallet list (lines 28-30). -/
structure Config where
  weth : String
  tradeAmountUsd : ℚ
  targetWallets : List String

/-- The native-currency pseudo-address constant of part_000 (line 34). -/
def ethPseudoAddress : String := "0xeeeeeeeeeeeeeeeeeeeeeeeeeeeeeeeeeeeeeeee"

/-- The per-wallet buy cooldown of part_000 (line 37, 10 seconds). -/
def cooldownMs : Nat := 10000

/-- isEth of part_000 (lines 103-106). -/
def isEth (cfg : Config) (token : String) : Bool :=
  lower token = cfg.weth || lower token = ethPseudoAddress

/-- Round a rational half-up, as Number.prototype.toFixed does for the
positive magnitudes involved. -/
def roundRat (q : ℚ) : Int := Int.floor (q + 1 / 2)

/-- The wei threshold of the balance guard (part_000 lines 207-208):
requiredEth = (TRADE_AMOUNT_USD / 2000) * 1.05, rendered with toFixed(8)
and parsed by ethers.parseEther, hence rounded at the eighth decimal. -/
def requiredWei (amountUsd : ℚ) : Int :=
  roundRat (amountUsd / 2000 * (21 / 20) * 100000000) * 10000000000

/-- The sell loop of handleSwap (part_000 lines 163-193): for each token of
the snapshot of open positions, run executeCopySell with the source's
defaulted arguments (fraction 1.0, 3 retries, 5000 ms delay); a successful
sell removes the position and notifies, a zero-balance skip removes it
silently, and a failure leaves the ledger untouched and notifies. -/
def processSells (env : Env) (whale txHash : String) :
    BotState → List String → BotState × List Effect
  | st, [] => (st, [])
  | st, tokenIn :: restTokens =>
    let r := executeCopySell env tokenIn 1 3 5000
    match r.1.status with
    | .ok =>
      let st1 := removePosition st whale tokenIn
      let k := processSells env whale txHash st1 restTokens
      (k.1, r.2 ++ .notifySellExecuted whale tokenIn :: k.2)
    | .skipped =>
      let st1 := removePosition st whale tokenIn
      let k := processSells env whale txHash st1 restTokens
      (k.1, r.2 ++ k.2)
    | .failed =>
      let k := processSells env whale txHash st restTokens
      (k.1, r.2 ++ .notifySellFailed whale tokenIn (r.1.errorMsg.getD ("unknown")) :: k.2)

/-- handleSwap of part_000 (lines 143-247).  A wrapped-native or native
tokenOut takes the sale path: with no open positions a single unknown-token
sell notification, otherwise the sequential sell loop.  Any other tokenOut
takes the buy path: the cooldown gate aborts silently; passing the gate
stamps lastTrade immediately; the balance guard then aborts with one
insufficient-balance notification; otherwise the buy cycle runs and only a
successful result appends a position. -/
def handleSwap (cfg : Config) (env : Env) (st : BotState)
    (txHash txFrom : String) (now : Nat) (tokenOut : String) : BotState × List Effect :=
  let sender := lower txFrom
  if isEth cfg tokenOut then
    let positions := getPositions st sender
    if positions.isEmpty then
      (st, [.notifySellDetected sender ("unknown") txHash])
    else
      processSells env sender txHash st positions
  else
    let lastTime := (getMap st.lastTrade sender).getD 0
    if (now : Int) - (lastTime : Int) < (cooldownMs : Int) then (st, [])
    else
      let st1 := { st with lastTrade := setMap st.lastTrade sender now }
      if (env.nativeBalance : Int) < requiredWei cfg.tradeAmountUsd then
        (st1, [.fetchNativeBalance, .notifyInsufficientBalance])
      else
        match env.buyResult with
        | .ok =>
          (addPosition st1 sender tokenOut,
            [.fetchNativeBalance, .buyCycle tokenOut, .notifyBuyExecuted sender tokenOut])
        | .failed reason =>
          (st1, [.fetchNativeBalance, .buyCycle tokenOut, .notifyBuyFailed sender tokenOut reason])
        | .skipped => (st1, [.fetchNativeBalance, .buyCycle tokenOut])

-- ─────────────────────────────────────────────
-- Dedup gate and dispatch (src/unnamed/part_000, lines 249-292)
-- ─────────────────────────────────────────────

/-- A transaction observed in a fetched block, as handed to handlePendingTx. -/
structure ObservedTx where
  hash : String
  sender : String
  dest : Option String
  input : String
  value : Nat

/-- Decision of the synchronous prefix of handlePendingTx. -/
inductive SyncDecision where
  | stop
  | direct (tokenOut : String)
  | deferred
deriving DecidableEq, Repr

/-- The synchronous prefix of handlePendingTx (part_000 lines 256-278):
everything up to the first suspension point.  It filters non-target senders,
returns early when the hash is already in the processed set, classifies the
input, and — when the transaction is a swap — inserts the hash into the
processed set before either dispatching directly (tokenOut known) or
scheduling deferred receipt resolution.  The whole prefix contains no await,
so under the cooperative event-loop model it executes atomically. -/
def handlePendingTxSync (cfg : Config) (st : BotState) (tx : ObservedTx) :
    BotState × SyncDecision :=
  let sender := lower tx.sender
  if sender ∈ cfg.targetWallets then
    if tx.hash ∈ st.processedTxs then (st, .stop)
    else
      let swap := decodeSwap ⟨tx.input, tx.value, tx.dest⟩
      if swap.isSwap then
        let st1 := { st with processedTxs := tx.hash :: st.processedTxs }
        match swap.tokenOut with
        | some t => (st1, .direct t)
        | none => (st1, .deferred)
      else (st, .stop)
  else (st, .stop)

/-- handlePendingTx of part_000 (lines 249-292): the synchronous prefix
followed by either the direct handleSwap dispatch or the scheduling of the
deferred receipt-resolution callback. -/
def handlePendingTx (cfg : Config) (env : Env) (st : BotState) (tx : ObservedTx) (now : Nat) :
    BotState × List Effect :=
  match handlePendingTxSync cfg st tx with
  | (st1, .direct t) => handleSwap cfg env st1 tx.hash tx.sender now t
  | (st1, .deferred) => (st1, [.scheduleReceiptResolve tx.hash])
  | (st1, .stop) => (st1, [])

-- ─────────────────────────────────────────────
-- Receipt-based resolver (src/unnamed/part_000, lines 108-141)
-- ─────────────────────────────────────────────

/-- ethers.id of Withdrawal(address,uint256). -/
def withdrawalTopic : String :=
  "0x7fcf532c15f0a6db0bd6d0e038bea71d30d808c7d98cb3bf7268a95bf5081b65"

/-- ethers.id of Transfer(address,address,uint256). -/
def transferTopic : String :=
  "0xddf252ad1be2c89b69c2b068fc378daa952ba7f163c4a11628f55a4df523b3ef"

/-- A receipt log entry: emitting contract address and topic list. -/
structure RLog where
  address : String
  topics : List String
deriving DecidableEq, Repr

/-- ethers.dataSlice(topic, 12) followed by toLowerCase: the address held
in the last 20 bytes of a 32-byte topic word. -/
def topicAddress (t : String) : String := lower ("0x" ++ t.drop 26)

/-- The predicate of part_000 lines 121-123: a Withdrawal event emitted by
the wrapped-native contract. -/
def isWithdrawalLog (cfg : Config) (l : RLog) : Bool :=
  l.topics.head? = some withdrawalTopic && lower l.address = cfg.weth

/-- The predicate of part_000 lines 130-135: a Transfer event whose third
topic (the recipient) is the observed wallet. -/
def isTransferToWhale (whaleFrom : String) (l : RLog) : Bool :=
  l.topics.head? = some transferTopic &&
    match l.topics.get? 2 with
    | some t => topicAddress t = lower whaleFrom
    | none => false

/-- resolveTokenOut of part_000 (lines 108-141), with the receipt-polling
loop abstracted into the Option receipt argument (none when the receipt never
appeared within the 10-attempt budget).  A Withdrawal event from the
wrapped-native contract immediately resolves to the wrapped-native address;
otherwise the emitting contract of the last Transfer crediting the wallet is
returned; with neither, the resolution is unknown (none). -/
def resolveTokenOut (cfg : Config) (receipt : Option (List RLog)) (whaleFrom : String) :
    Option String :=
  match receipt with
  | none => none
  | some logs =>
    match logs.find? (isWithdrawalLog cfg) with
    | some _ => some cfg.weth
    | none =>
      match (logs.filter (isTransferToWhale whaleFrom)).getLast? with
      | some l => some l.address
      | none => none

-- ─────────────────────────────────────────────
-- Nonce sequencer (src/src/trader.ts, lines 247-308)
-- ─────────────────────────────────────────────

/-- The nonce sequencer's state: the cached next nonce, none when it must
be re-primed from the chain (trader.ts line 247). -/
structure NonceState where
  currentNonce : Option Nat
deriving DecidableEq, Repr

/-- getNextNonce of trader.ts (lines 262-270), with the mutual-exclusion
lock made implicit by the sequential state passing it enforces: when the
cache is empty the chain's pending nonce is fetched (third component true
records the network round trip) and the counter primed past it; otherwise
the cached value is returned and incremented with no network call. -/
def getNextNonce (chainPending : Nat) (s : NonceState) : Nat × NonceState × Bool :=
  match s.currentNonce with
  | none => (chainPending, ⟨some (chainPending + 1)⟩, true)
  | some n => (n, ⟨some (n + 1)⟩, false)

/-- k successive getNextNonce calls: the list of (returned nonce, fetched
from chain) pairs and the final state. -/
def nonceRun (chainPending : Nat) : Nat → NonceState → List (Nat × Bool) × NonceState
  | 0, s => ([], s)
  | k + 1, s =>
    let r := getNextNonce chainPending s
    let restRun := nonceRun chainPending k r.2.1
    ((r.1, r.2.2) :: restRun.1, restRun.2)

/-- An error thrown by a submission, as inspected by trader.ts line 302. -/
structure JsError where
  code : Option String
  message : Option String
deriving DecidableEq, Repr

/-- Whether the first character list starts the second. -/
def leadsList : List Char → List Char → Bool
  | [], _ => true
  | _ :: _, [] => false
  | a :: as, b :: bs => a = b && leadsList as bs

/-- Whether the first character list occurs contiguously inside the
second, mirroring String.prototype.includes. -/
def containsList (pat : List Char) : List Char → Bool
  | [] => pat.isEmpty
  | c :: rest => leadsList pat (c :: rest) || containsList pat rest

/-- The nonce-error test of trader.ts line 302: a NONCE_EXPIRED or
REPLACEMENT_UNDERPRICED code, or an error message mentioning the word
nonce. -/
def isNonceError (e : JsError) : Bool :=
  e.code = some ("NONCE_EXPIRED") || e.code = some ("REPLACEMENT_UNDERPRICED") ||
    match e.message with
    | some m => containsList (String.toList ("nonce")) m.toList
    | none => false

/-- Outcome of a sendTransaction-and-wait round trip. -/
inductive SendOutcome where
  | confirmed (receiptStatus : Nat)
  | errored (e : JsError)
deriving DecidableEq, Repr

/-- The nonce bookkeeping of sendAndWait (trader.ts lines 287-308): a
nonce is drawn from the sequencer; a submission error that is
nonce-related discards the cached counter (resetNonce, line 272), any
other outcome leaves the incremented counter in place.  Returns the nonce
used and the resulting sequencer state. -/
def sendAndWaitNonce (chainPending : Nat) (s : NonceState) (outcome : SendOutcome) :
    Nat × NonceState :=
  let r := getNextNonce chainPending s
  match outcome with
  | .confirmed _ => (r.1, r.2.1)
  | .errored e => (r.1, if isNonceError e then ⟨none⟩ else r.2.1)


-- ─────────────────────────────────────────────
-- Effect predicates and concrete fixtures
-- ─────────────────────────────────────────────

def isSellFailedNotifEff : Effect → Bool
  | .notifySellFailed _ _ _ => true
  | _ => false

/-- Whether a sell attempt outcome is one the retry loop retries on:
a revert or a thrown request error. -/
def isFailAttempt : AttemptOutcome → Bool
  | .reverted => true
  | .requestError _ => true
  | _ => false

/-- A startup configuration used by the concrete runs: the Base wrapped
native address (lowercase), a 5 USD trade size and one target wallet. -/
def cfgBase : Config :=
  ⟨"0x4200000000000000000000000000000000000006", 5, [("0xwh01")]⟩

/-- The ledger after two successful buy triggers of the same
(wallet, token) pair. -/
def stTwoBuys : BotState :=
  addPosition (addPosition initState ("0xwh01") ("0xtok01")) ("0xwh01") ("0xtok01")

/-- The ledger holding one open position. -/
def stOnePos : BotState := addPosition initState ("0xwh01") ("0xtok01")

/-- An external world where every sell attempt succeeds at once, the buy
cycle succeeds, every token balance is 1000000 and the native balance is
one whole coin. -/
def envSellOk : Env :=
  ⟨1000000000000000000, BuyOutcome.ok, fun _ => 1000000, fun _ _ => AttemptOutcome.ok 1⟩

/-- An external world where every sell submission reverts. -/
def envFailSell : Env :=
  ⟨1000000000000000000, BuyOutcome.skipped, fun _ => 77, fun _ _ => AttemptOutcome.reverted⟩

/-- An external world with an empty managed account. -/
def envBroke : Env :=
  ⟨0, BuyOutcome.ok, fun _ => 0, fun _ _ => AttemptOutcome.reverted⟩

/-- A receipt log holding only the wrapped-native Withdrawal (unwrap)
event: no Transfer event of any direction. -/
def wLog : RLog := ⟨"0x4200000000000000000000000000000000000006", [withdrawalTopic]⟩

/-- A well-formed exactInputSingle payload: selector plus seven words,
buying token 0x2222...  from token 0x1111....  -/
def exactInputData : String :=
  "0x04e45aaf" ++
  "000000000000000000000000" ++ String.mk (List.replicate 40 '1') ++
  "000000000000000000000000" ++ String.mk (List.replicate 40 '2') ++
  String.mk (List.replicate 63 '0') ++ "a" ++
  "000000000000000000000000" ++ String.mk (List.replicate 40 '3') ++
  String.mk (List.replicate 63 '0') ++ "5" ++
  String.mk (List.replicate 64 '0') ++
  String.mk (List.replicate 64 '0')

/-- An observed target-wallet transaction carrying the decodable
exactInputSingle payload. -/
def txObs : ObservedTx := ⟨"0xh1", "0xwh01", none, exactInputData, 0⟩

-- ─────────────────────────────────────────────
-- Helper lemmas
-- ─────────────────────────────────────────────

theorem getMap_setMap_same {α : Type} (m : List (String × α)) (k : String) (v : α) :
    getMap (setMap m k v) k = some v := by
  induction m with
  | nil => simp [getMap, setMap]
  | cons hd tl ih =>
    obtain ⟨k1, v1⟩ := hd
    by_cases h : k1 = k
    · simp [getMap, setMap, h]
    · simp [getMap, setMap, h, ih]

theorem addPosition_processedTxs (st : BotState) (w t : String) :
    (addPosition st w t).processedTxs = st.processedTxs := rfl

theorem addPosition_lastTrade (st : BotState) (w t : String) :
    (addPosition st w t).lastTrade = st.lastTrade := rfl

theorem removePosition_processedTxs (st : BotState) (w t : String) :
    (removePosition st w t).processedTxs = st.processedTxs := by
  simp only [removePosition]
  cases h : getMap st.openPositions (lower w) <;> simp [h]

theorem removePosition_lastTrade (st : BotState) (w t : String) :
    (removePosition st w t).lastTrade = st.lastTrade := by
  simp only [removePosition]
  cases h : getMap st.openPositions (lower w) <;> simp [h]

theorem processSells_processedTxs (env : Env) (w h : String) :
    ∀ (ts : List String) (st : BotState),
      ((processSells env w h st ts).1).processedTxs = st.processedTxs := by
  intro ts
  induction ts with
  | nil => intro st; rfl
  | cons tk rest ih =>
    intro st
    simp only [processSells]
    cases hs : (executeCopySell env tk 1 3 5000).1.status <;>
      simp [hs, ih, removePosition_processedTxs]

theorem handleSwap_processedTxs (cfg : Config) (env : Env) (st : BotState)
    (h f : String) (now : Nat) (t : String) :
    ((handleSwap cfg env st h f now t).1).processedTxs = st.processedTxs := by
  simp only [handleSwap]
  split
  · split
    · rfl
    · exact processSells_processedTxs env (lower f) h (getPositions st (lower f)) st
  · split
    · rfl
    · split
      · rfl
      · cases env.buyResult <;> simp [addPosition]

theorem sync_stop_of_dup (cfg : Config) (st : BotState) (tx : ObservedTx)
    (hdup : tx.hash ∈ st.processedTxs) :
    handlePendingTxSync cfg st tx = (st, SyncDecision.stop) := by
  unfold handlePendingTxSync
  by_cases hT : lower tx.sender ∈ cfg.targetWallets
  · simp [hT, hdup]
  · simp [hT]

theorem handlePendingTx_noop_of_dup (cfg : Config) (env : Env) (st : BotState)
    (tx : ObservedTx) (now : Nat) (hdup : tx.hash ∈ st.processedTxs) :
    handlePendingTx cfg env st tx now = (st, []) := by
  unfold handlePendingTx
  rw [sync_stop_of_dup cfg st tx hdup]

/-- C4: for any transaction hash, invoking the transaction handler twice —
sequentially, or concurrently under the cooperative event-loop model, where
the synchronous prefix handlePendingTxSync executes atomically — results in
the effects and ledger mutations of the first invocation only: the second
invocation returns the state unchanged with no effects; whenever the
synchronous prefix decides to proceed it has already inserted the hash into
the processed set (before any suspension point); and the processed set only
ever grows, so a hash once inserted keeps shielding later invocations. -/
theorem handle_idempotent (cfg : Config) (env env2 : Env) (st : BotState)
    (tx : ObservedTx) (now now2 : Nat) :
    (handlePendingTx cfg env2 (handlePendingTx cfg env st tx now).1 tx now2
        = ((handlePendingTx cfg env st tx now).1, [])) ∧
    ((handlePendingTxSync cfg st tx).2 ≠ SyncDecision.stop →
        tx.hash ∈ ((handlePendingTxSync cfg st tx).1).processedTxs) ∧
    (∀ h2, h2 ∈ st.processedTxs → h2 ∈ ((handlePendingTx cfg env st tx now).1).processedTxs) := by
  by_cases hT : lower tx.sender ∈ cfg.targetWallets
  · by_cases hH : tx.hash ∈ st.processedTxs
    · refine ⟨?_, ?_, ?_⟩
      · rw [handlePendingTx_noop_of_dup cfg env st tx now hH]
        exact handlePendingTx_noop_of_dup cfg env2 st tx now2 hH
      · intro hc
        exact absurd (congrArg Prod.snd (sync_stop_of_dup cfg st tx hH)) hc
      · intro h2 hm
        rw [handlePendingTx_noop_of_dup cfg env st tx now hH]
        exact hm
    · cases hS : (decodeSwap ⟨tx.input, tx.value, tx.dest⟩).isSwap
      · have hsync : handlePendingTxSync cfg st tx = (st, SyncDecision.stop) := by
          unfold handlePendingTxSync
          simp [hT, hH, hS]
        have hrun : handlePendingTx cfg env st tx now = (st, []) := by
          unfold handlePendingTx
          rw [hsync]
        refine ⟨?_, ?_, ?_⟩
        · rw [hrun]
          unfold handlePendingTx
          rw [hsync]
        · intro hc
          exact absurd (congrArg Prod.snd hsync) hc
        · intro h2 hm
          rw [hrun]
          exact hm
      · cases hTok : (decodeSwap ⟨tx.input, tx.value, tx.dest⟩).tokenOut
        · have hsync : handlePendingTxSync cfg st tx
              = ({ st with processedTxs := tx.hash :: st.processedTxs }, SyncDecision.deferred) := by
            unfold handlePendingTxSync
            simp [hT, hH, hS, hTok]
          have hrun : handlePendingTx cfg env st tx now
              = ({ st with processedTxs := tx.hash :: st.processedTxs },
                 [Effect.scheduleReceiptResolve tx.hash]) := by
            unfold handlePendingTx
            rw [hsync]
          refine ⟨?_, ?_, ?_⟩
          · rw [hrun]
            exact handlePendingTx_noop_of_dup cfg env2 _ tx now2 (by simp)
          · intro _
            rw [hsync]
            simp
          · intro h2 hm
            rw [hrun]
            exact List.mem_cons_of_mem _ hm
        · rename_i tOut
          have hsync : handlePendingTxSync cfg st tx
              = ({ st with processedTxs := tx.hash :: st.processedTxs },
                 SyncDecision.direct tOut) := by
            unfold handlePendingTxSync
            simp [hT, hH, hS, hTok]
          have hrun : handlePendingTx cfg env st tx now
              = handleSwap cfg env { st with processedTxs := tx.hash :: st.processedTxs }
                  tx.hash tx.sender now tOut := by
            unfold handlePendingTx
            rw [hsync]
          have hmem : tx.hash ∈ ((handlePendingTx cfg env st tx now).1).processedTxs := by
            rw [hrun, handleSwap_processedTxs]
            simp
          refine ⟨?_, ?_, ?_⟩
          · exact handlePendingTx_noop_of_dup cfg env2 _ tx now2 hmem
          · intro _
            rw [hsync]
            simp
          · intro h2 hm
            rw [hrun, handleSwap_processedTxs]
            exact List.mem_cons_of_mem _ hm
  · have hsync : handlePendingTxSync cfg st tx = (st, SyncDecision.stop) := by
      unfold handlePendingTxSync
      simp [hT]
    have hrun : handlePendingTx cfg env st tx now = (st, []) := by
      unfold handlePendingTx
      rw [hsync]
    refine ⟨?_, ?_, ?_⟩
    · rw [hrun]
      unfold handlePendingTx
      rw [hsync]
    · intro hc
      exact absurd (congrArg Prod.snd hsync) hc
    · intro h2 hm
      rw [hrun]
      exact hm

/-- C4 witness: a concrete double invocation on a decodable swap payload
from the target wallet. -/
theorem handle_idempotent_witness :
    (handlePendingTx cfgBase envSellOk
        (handlePendingTx cfgBase envSellOk initState txObs 50000).1 txObs 50010
      = ((handlePendingTx cfgBase envSellOk initState txObs 50000).1, [])) ∧
    txObs.hash ∈ ((handlePendingTxSync cfgBase initState txObs).1).processedTxs :=
  ⟨(handle_idempotent cfgBase envSellOk envSellOk initState txObs 50000 50010).1,
   (handle_idempotent cfgBase envSellOk envSellOk initState txObs 50000 50010).2.1 (by decide)⟩

/-- C1 counterexample: two successful buys of the same (wallet, token)
leave a single ledger entry, not two lots, and one removal already empties
the position — the ledger cannot represent N discrete lots of one token,
so no FIFO consumption of N lots over N sells exists. -/
theorem ledger_lots_counterexample :
    (getPositions stTwoBuys ("0xwh01")).length = 1 ∧
    getPositions (removePosition stTwoBuys ("0xwh01") ("0xtok01")) ("0xwh01") = [] := by
  decide

/-- C1 amended: the position ledger stores, per whale wallet, an
insertion-ordered duplicate-free list of token addresses: buying a token
already held leaves the ledger unchanged, buying a new token appends it at
the end, and a removal erases the token's single entry. -/
theorem ledger_set_semantics (st : BotState) (w t : String) :
    (lower t ∈ getPositions st w → getPositions (addPosition st w t) w = getPositions st w) ∧
    (lower t ∉ getPositions st w →
        getPositions (addPosition st w t) w = getPositions st w ++ [lower t]) ∧
    getPositions (removePosition st w t) w = (getPositions st w).erase (lower t) := by
  have hadd : getPositions (addPosition st w t) w
      = (if lower t ∈ getPositions st w then getPositions st w
         else getPositions st w ++ [lower t]) := by
    simp only [getPositions, addPosition, getMap_setMap_same, Option.getD_some]
  refine ⟨fun hm => by rw [hadd, if_pos hm], fun hm => by rw [hadd, if_neg hm], ?_⟩
  simp only [getPositions, removePosition]
  cases hg : getMap st.openPositions (lower w) with
  | none => simp [hg]
  | some cur => simp [hg, getMap_setMap_same]

/-- C1 amended witness: a repeated buy leaves the single entry in place
and one removal erases it. -/
theorem ledger_set_semantics_witness :
    getPositions (addPosition stOnePos ("0xwh01") ("0xtok01")) ("0xwh01")
        = getPositions stOnePos ("0xwh01") ∧
    getPositions (removePosition stOnePos ("0xwh01") ("0xtok01")) ("0xwh01")
        = (getPositions stOnePos ("0xwh01")).erase (lower ("0xtok01")) :=
  ⟨(ledger_set_semantics stOnePos ("0xwh01") ("0xtok01")).1 (by decide),
   (ledger_set_semantics stOnePos ("0xwh01") ("0xtok01")).2.2⟩

theorem executeCopySell_ok (env : Env) (tk : String) (hb : env.tokenBalance tk ≠ 0)
    (b : Nat) (hok : env.sellAttempt tk 1 = AttemptOutcome.ok b) :
    executeCopySell env tk 1 3 5000
      = (⟨SellStatus.ok, none⟩,
         [Effect.fetchTokenBalance tk, Effect.sellSubmit tk (env.tokenBalance tk)]) := by
  simp only [executeCopySell, if_neg hb, if_pos (le_refl (1 : ℚ)), sellAttemptLoop, hok]

/-- C2 counterexample: the ledger after two successful buys of the same
(wallet, token) triggers exactly one sell submission sized to the whole
on-chain balance (1000000), not two sequential partial sells of one half
and then the remainder — the fraction parameter is never passed by the
handler, so it defaults to 1.0. -/
theorem sell_fraction_counterexample :
    ((handleSwap cfgBase envSellOk stTwoBuys ("0xh1") ("0xwh01") 0
        ("0x4200000000000000000000000000000000000006")).2.countP isSellSubmitEff = 1) ∧
    (Effect.sellSubmit ("0xtok01") 1000000
        ∈ (handleSwap cfgBase envSellOk stTwoBuys ("0xh1") ("0xwh01") 0
            ("0x4200000000000000000000000000000000000006")).2) ∧
    ¬ (Effect.sellSubmit ("0xtok01") 500000
        ∈ (handleSwap cfgBase envSellOk stTwoBuys ("0xh1") ("0xwh01") 0
            ("0x4200000000000000000000000000000000000006")).2) := by
  decide

/-- C2 amended: the sell path performs one sell per distinct open token,
processed sequentially, each submission sized to the entire current
on-chain balance of that token (executeCopySell is invoked with the
defaulted fraction 1.0); with nonzero balances and first-attempt successes
every processed position is removed. -/
theorem sell_full_balance_per_token (env : Env) (whale h : String) :
    ∀ (ts : List String) (st : BotState),
      (∀ tk, tk ∈ ts →
          env.tokenBalance tk ≠ 0 ∧ ∃ b, env.sellAttempt tk 1 = AttemptOutcome.ok b) →
      (processSells env whale h st ts).2
          = List.flatten (ts.map (fun tk =>
              [Effect.fetchTokenBalance tk, Effect.sellSubmit tk (env.tokenBalance tk),
               Effect.notifySellExecuted whale tk])) ∧
      (processSells env whale h st ts).1
          = ts.foldl (fun s tk => removePosition s whale tk) st := by
  intro ts
  induction ts with
  | nil =>
    intro st hh
    simp [processSells]
  | cons tk rest ih =>
    intro st hh
    obtain ⟨hb, b, hok⟩ := hh tk (by simp)
    have hrest := fun tk2 hm => hh tk2 (List.mem_cons_of_mem tk hm)
    have he := executeCopySell_ok env tk hb b hok
    obtain ⟨ih1, ih2⟩ := ih (removePosition st whale tk) hrest
    simp only [processSells, he]
    exact ⟨by simp [ih1], by simp [ih2]⟩

/-- C2 amended witness: a single open position is liquidated with one
full-balance submission. -/
theorem sell_full_balance_witness :
    (processSells envSellOk ("0xwh01") ("0xh1") stOnePos [("0xtok01")]).2
        = [Effect.fetchTokenBalance ("0xtok01"), Effect.sellSubmit ("0xtok01") 1000000,
           Effect.notifySellExecuted ("0xwh01") ("0xtok01")] := by
  have h := sell_full_balance_per_token envSellOk ("0xwh01") ("0xh1") [("0xtok01")] stOnePos
    (by
      intro tk hm
      simp only [List.mem_singleton] at hm
      subst hm
      exact ⟨by decide, 1, by decide⟩)
  exact h.1.trans (by decide)

theorem executeCopySell_head (env : Env) (tk : String) (fr : ℚ) (r d : Nat) :
    ∃ l, (executeCopySell env tk fr r d).2 = Effect.fetchTokenBalance tk :: l := by
  simp only [executeCopySell]
  repeat' split
  all_goals first
    | exact ⟨[], rfl⟩
    | exact ⟨_, rfl⟩

theorem processSells_head (env : Env) (whale h : String) (st : BotState)
    (tk : String) (rest : List String) :
    ∃ l, (processSells env whale h st (tk :: rest)).2 = Effect.fetchTokenBalance tk :: l := by
  obtain ⟨l, hl⟩ := executeCopySell_head env tk 1 3 5000
  simp only [processSells]
  cases hs : (executeCopySell env tk 1 3 5000).1.status <;>
    · simp only [hs]
      rw [hl, List.cons_append]
      exact ⟨_, rfl⟩

/-- C3 counterexample: a receipt holding only the wrapped-native
Withdrawal (unwrap) event — no Transfer log at all, hence no matching
outbound transfer — is resolved to a confirmed sale of the wrapped-native
token, and with one open ledger position the handler performs an external
sell submission and mutates the ledger, instead of the claimed single
unknown-direction notification with zero mutations and zero trade calls. -/
theorem resolver_unwrap_counterexample :
    resolveTokenOut cfgBase (some [wLog]) ("0xwh01") = some cfgBase.weth ∧
    ([wLog].filter (fun l => l.topics.head? == some transferTopic)).length = 0 ∧
    ((handleSwap cfgBase envSellOk stOnePos ("0xh2") ("0xwh01") 0 cfgBase.weth).2.countP
        isSellSubmitEff ≠ 0) ∧
    (handleSwap cfgBase envSellOk stOnePos ("0xh2") ("0xwh01") 0 cfgBase.weth).1 ≠ stOnePos := by
  decide

/-- C3 amended: the resolver confirms a sale (returning the wrapped-native
token) whenever the receipt contains a wrapped-native Withdrawal event,
with no outbound-transfer requirement; an unwrap receipt yields a single
unknown-token notification with zero ledger mutations and zero trade calls
exactly when the wallet has no open ledger positions, while an open
position leads to an external sell call. -/
theorem resolver_unwrap_confirms_sale (cfg : Config) (env : Env) (st : BotState)
    (logs : List RLog) (w h : String) (now : Nat)
    (hweth : lower cfg.weth = cfg.weth)
    (hw : lower w = w)
    (hun : (logs.find? (isWithdrawalLog cfg)).isSome = true) :
    (resolveTokenOut cfg (some logs) w = some cfg.weth) ∧
    (getPositions st w = [] →
        handleSwap cfg env st h w now cfg.weth
          = (st, [Effect.notifySellDetected w ("unknown") h])) ∧
    (∀ tk rest, getPositions st w = tk :: rest →
        ∃ l, (handleSwap cfg env st h w now cfg.weth).2
            = Effect.fetchTokenBalance tk :: l) := by
  have hE : isEth cfg cfg.weth = true := by simp [isEth, hweth]
  refine ⟨?_, ?_, ?_⟩
  · cases hf : logs.find? (isWithdrawalLog cfg) with
    | none => rw [hf] at hun; simp at hun
    | some l => simp [resolveTokenOut, hf]
  · intro hpos
    simp only [handleSwap, hE, if_true, hw, hpos]
    simp
  · intro tk rest hpos
    simp only [handleSwap, hE, if_true, hw, hpos]
    simp only [List.isEmpty_cons, if_false]
    exact processSells_head env w h st tk rest

/-- C3 amended witness: the unwrap-only receipt resolves to a sale, and
with an empty ledger the run emits the single unknown-token notification
and leaves the state untouched. -/
theorem resolver_unwrap_witness :
    resolveTokenOut cfgBase (some [wLog]) ("0xwh01") = some cfgBase.weth ∧
    handleSwap cfgBase envSellOk initState ("0xh3") ("0xwh01") 0 cfgBase.weth
      = (initState, [Effect.notifySellDetected ("0xwh01") ("unknown") ("0xh3")]) :=
  ⟨(resolver_unwrap_confirms_sale cfgBase envSellOk initState [wLog] ("0xwh01") ("0xh3") 0
      (by decide) (by decide) (by decide)).1,
   (resolver_unwrap_confirms_sale cfgBase envSellOk initState [wLog] ("0xwh01") ("0xh3") 0
      (by decide) (by decide) (by decide)).2.1 (by decide)⟩

/-- C5: the swap classifier is a pure total Lean function over every input
byte string, value and destination (the embedding has no partiality and the
throwing ABI decode is the none case of decodeExactInputSingle); an input
whose selector is not in the selector table and whose destination is not on
the router allow-list classifies as not-a-swap; a known selector classifies
as a swap, and a known selector whose structured decode fails degrades to a
swap with both tokens unknown rather than an exception. -/
theorem classifier_total (tx : DecodeTx) :
    ((getMap swapSelectors (selectorOf tx.data) = none →
      (∀ d, tx.dest = some d → lower d ∉ knownRouters) →
      (decodeSwap tx).isSwap = false)) ∧
    (∀ proto, getMap swapSelectors (selectorOf tx.data) = some proto →
      ¬ tx.data.length < 10 → (decodeSwap tx).isSwap = true) ∧
    (selectorOf tx.data = ("0x04e45aaf") → ¬ tx.data.length < 10 →
      decodeExactInputSingle tx.data = none →
      (decodeSwap tx).isSwap = true ∧ (decodeSwap tx).tokenIn = none ∧
        (decodeSwap tx).tokenOut = none) := by
  refine ⟨?_, ?_, ?_⟩
  · intro hsel hdest
    by_cases hlen : tx.data.length < 10
    · simp [decodeSwap, hlen, noSwapInfo]
    · simp only [decodeSwap, if_neg hlen, hsel]
      cases hd : tx.dest with
      | none => simp [noSwapInfo]
      | some d => simp [hdest d hd, noSwapInfo]
  · intro proto hp hlen
    simp only [decodeSwap, if_neg hlen, hp]
    split
    · cases hdec : decodeExactInputSingle tx.data <;> simp [hdec]
    · rfl
  · intro hsel hlen hdec
    have hp : getMap swapSelectors ("0x04e45aaf")
        = some ("Uniswap V3 - exactInputSingle") := by decide
    simp [decodeSwap, if_neg hlen, hsel, hp, hdec]

/-- C5 witness: an unknown selector with no router destination is not a
swap; the exactInputSingle selector with a malformed tail is a swap with
unknown tokens. -/
theorem classifier_total_witness :
    (decodeSwap ⟨"0xdeadbeef00", 0, none⟩).isSwap = false ∧
    (decodeSwap ⟨"0x04e45aaf00", 0, none⟩).isSwap = true ∧
    (decodeSwap ⟨"0x04e45aaf00", 0, none⟩).tokenOut = none :=
  ⟨(classifier_total ⟨"0xdeadbeef00", 0, none⟩).1 (by decide) (fun d hd => by cases hd),
   ((classifier_total ⟨"0x04e45aaf00", 0, none⟩).2.2 (by decide) (by decide) (by decide)).1,
   ((classifier_total ⟨"0x04e45aaf00", 0, none⟩).2.2 (by decide) (by decide) (by decide)).2.2⟩

theorem handleSwap_cooldown_noop (cfg : Config) (env : Env) (st : BotState)
    (h f : String) (now : Nat) (t : String)
    (hEth : isEth cfg t = false)
    (hlt : (now : Int) - (((getMap st.lastTrade (lower f)).getD 0 : Nat) : Int)
        < (cooldownMs : Int)) :
    handleSwap cfg env st h f now t = (st, []) := by
  simp only [handleSwap, hEth, Bool.false_eq_true, if_false, if_pos hlt]

theorem handleSwap_buy_lastTrade (cfg : Config) (env : Env) (st : BotState)
    (h f : String) (now : Nat) (t : String)
    (hEth : isEth cfg t = false)
    (hgate : ¬ ((now : Int) - (((getMap st.lastTrade (lower f)).getD 0 : Nat) : Int)
        < (cooldownMs : Int))) :
    getMap ((handleSwap cfg env st h f now t).1).lastTrade (lower f) = some now := by
  simp only [handleSwap, hEth, Bool.false_eq_true, if_false, if_neg hgate]
  split
  · exact getMap_setMap_same st.lastTrade (lower f) now
  · cases env.buyResult <;> simp [addPosition, getMap_setMap_same]

/-- C6: when a buy trigger for a wallet passed the cooldown gate at time
now, a second buy trigger for the same wallet arriving within the cooldown
window is a no-op — the state (ledger and all) is unchanged and no effect,
in particular no balance fetch, quote or execute call, is produced. -/
theorem cooldown_second_noop (cfg : Config) (env env2 : Env) (st : BotState)
    (h h2 f : String) (now now2 : Nat) (t t2 : String)
    (hEth : isEth cfg t = false) (hEth2 : isEth cfg t2 = false)
    (hgate : ¬ ((now : Int) - (((getMap st.lastTrade (lower f)).getD 0 : Nat) : Int)
        < (cooldownMs : Int)))
    (hwin : (now2 : Int) - (now : Int) < (cooldownMs : Int)) :
    handleSwap cfg env2 (handleSwap cfg env st h f now t).1 h2 f now2 t2
      = ((handleSwap cfg env st h f now t).1, []) := by
  have hl := handleSwap_buy_lastTrade cfg env st h f now t hEth hgate
  apply handleSwap_cooldown_noop cfg env2 _ h2 f now2 t2 hEth2
  rw [hl]
  simpa using hwin

/-- C6 witness: two concrete buy triggers 10 ms apart. -/
theorem cooldown_second_noop_witness :
    handleSwap cfgBase envSellOk
        (handleSwap cfgBase envSellOk initState ("0xh1") ("0xwh01") 50000 ("0xtok01")).1
        ("0xh2") ("0xwh01") 50010 ("0xtok01")
      = ((handleSwap cfgBase envSellOk initState ("0xh1") ("0xwh01") 50000 ("0xtok01")).1,
         []) :=
  cooldown_second_noop cfgBase envSellOk envSellOk initState ("0xh1") ("0xh2") ("0xwh01")
    50000 50010 ("0xtok01") ("0xtok01") (by decide) (by decide) (by decide) (by decide)

/-- C7: in the buy path, when the native balance is below the threshold
requiredWei — the USD trade size converted at the conservative 2000 USD
price estimate, with the 5 percent buffer, rounded at the eighth decimal as
the source renders it — the run performs no quote or execute call, creates
no position, and fires the insufficient-balance notification exactly once
for the trigger. -/
theorem balance_guard (cfg : Config) (env : Env) (st : BotState)
    (h f : String) (now : Nat) (t : String)
    (hEth : isEth cfg t = false)
    (hgate : ¬ ((now : Int) - (((getMap st.lastTrade (lower f)).getD 0 : Nat) : Int)
        < (cooldownMs : Int)))
    (hbal : (env.nativeBalance : Int) < requiredWei cfg.tradeAmountUsd) :
    (handleSwap cfg env st h f now t
        = ({ st with lastTrade := setMap st.lastTrade (lower f) now },
           [Effect.fetchNativeBalance, Effect.notifyInsufficientBalance])) ∧
    ((handleSwap cfg env st h f now t).2.countP isBuyCycleEff = 0) ∧
    ((handleSwap cfg env st h f now t).2.countP isSellSubmitEff = 0) ∧
    ((handleSwap cfg env st h f now t).2.countP
        (fun e => e == Effect.notifyInsufficientBalance) = 1) ∧
    ((handleSwap cfg env st h f now t).1.openPositions = st.openPositions) := by
  have hmain : handleSwap cfg env st h f now t
      = ({ st with lastTrade := setMap st.lastTrade (lower f) now },
         [Effect.fetchNativeBalance, Effect.notifyInsufficientBalance]) := by
    simp only [handleSwap, hEth, Bool.false_eq_true, if_false, if_neg hgate, if_pos hbal]
  refine ⟨hmain, ?_, ?_, ?_, ?_⟩ <;> rw [hmain] <;> rfl

/-- C7 witness: an empty managed account aborts the concrete buy trigger
with a single insufficient-balance notification. -/
theorem balance_guard_witness :
    handleSwap cfgBase envBroke initState ("0xh1") ("0xwh01") 50000 ("0xtok01")
      = ({ initState with lastTrade := setMap initState.lastTrade (lower ("0xwh01")) 50000 },
         [Effect.fetchNativeBalance, Effect.notifyInsufficientBalance]) :=
  (balance_guard cfgBase envBroke initState ("0xh1") ("0xwh01") 50000 ("0xtok01")
    (by decide) (by decide)
    (by norm_num [envBroke, cfgBase, requiredWei, roundRat])).1

/-- C10: once the cooldown gate passes, the wallet's last-trade timestamp
is stamped with the trigger time before the balance guard and before any
trade call, so a trigger aborted for insufficient balance or whose buy
fails on-chain still starts the cooldown window — a further buy trigger
within the window is a complete no-op — while the position ledger is left
unchanged on those aborted and failed paths. -/
theorem cooldown_stamp_frame (cfg : Config) (env : Env) (st : BotState)
    (h f : String) (now : Nat) (t : String)
    (hEth : isEth cfg t = false)
    (hgate : ¬ ((now : Int) - (((getMap st.lastTrade (lower f)).getD 0 : Nat) : Int)
        < (cooldownMs : Int))) :
    (getMap ((handleSwap cfg env st h f now t).1).lastTrade (lower f) = some now) ∧
    ((env.nativeBalance : Int) < requiredWei cfg.tradeAmountUsd →
        ((handleSwap cfg env st h f now t).1).openPositions = st.openPositions) ∧
    (∀ msg, env.buyResult = BuyOutcome.failed msg →
        ((handleSwap cfg env st h f now t).1).openPositions = st.openPositions) ∧
    (∀ (env2 : Env) (h2 : String) (now2 : Nat) (t2 : String), isEth cfg t2 = false →
        (now2 : Int) - (now : Int) < (cooldownMs : Int) →
        handleSwap cfg env2 (handleSwap cfg env st h f now t).1 h2 f now2 t2
          = ((handleSwap cfg env st h f now t).1, [])) := by
  refine ⟨handleSwap_buy_lastTrade cfg env st h f now t hEth hgate, ?_, ?_, ?_⟩
  · intro hbal
    simp only [handleSwap, hEth, Bool.false_eq_true, if_false, if_neg hgate, if_pos hbal]
  · intro msg hbr
    simp only [handleSwap, hEth, Bool.false_eq_true, if_false, if_neg hgate, hbr]
    split
    · rfl
    · rfl
  · intro env2 h2 now2 t2 hEth2 hwin
    have hl := handleSwap_buy_lastTrade cfg env st h f now t hEth hgate
    apply handleSwap_cooldown_noop cfg env2 _ h2 f now2 t2 hEth2
    rw [hl]
    simpa using hwin

/-- C10 witness: a concrete insufficient-balance trigger stamps the
cooldown and leaves the ledger untouched. -/
theorem cooldown_stamp_frame_witness :
    getMap ((handleSwap cfgBase envBroke initState ("0xh1") ("0xwh01") 50000
        ("0xtok01")).1).lastTrade (lower ("0xwh01")) = some 50000 ∧
    ((handleSwap cfgBase envBroke initState ("0xh1") ("0xwh01") 50000
        ("0xtok01")).1).openPositions = initState.openPositions := by
  have hh := cooldown_stamp_frame cfgBase envBroke initState ("0xh1") ("0xwh01") 50000
      ("0xtok01") (by decide) (by decide)
  exact ⟨hh.1, hh.2.1 (by norm_num [envBroke, cfgBase, requiredWei, roundRat])⟩

theorem executeCopySell_retries (env : Env) (tk : String)
    (hb : env.tokenBalance tk ≠ 0)
    (h1 : isFailAttempt (env.sellAttempt tk 1) = true)
    (h2 : isFailAttempt (env.sellAttempt tk 2) = true)
    (h3 : isFailAttempt (env.sellAttempt tk 3) = true) :
    ((executeCopySell env tk 1 3 5000).1.status = SellStatus.failed) ∧
    ((executeCopySell env tk 1 3 5000).2
        = [Effect.fetchTokenBalance tk,
           Effect.sellSubmit tk (env.tokenBalance tk), Effect.sleepMs 5000,
           Effect.sellSubmit tk (env.tokenBalance tk), Effect.sleepMs 5000,
           Effect.sellSubmit tk (env.tokenBalance tk)]) := by
  cases hA1 : env.sellAttempt tk 1 <;> rw [hA1] at h1 <;>
    try simp [isFailAttempt] at h1
  all_goals cases hA2 : env.sellAttempt tk 2 <;> rw [hA2] at h2 <;>
    try simp [isFailAttempt] at h2
  all_goals cases hA3 : env.sellAttempt tk 3 <;> rw [hA3] at h3 <;>
    try simp [isFailAttempt] at h3
  all_goals
    simp [executeCopySell, sellAttemptLoop, hA1, hA2, hA3, hb, le_refl]

/-- C8: a sell whose submissions revert or whose requests fail on all
three default attempts ends failed, with the default 5000 ms delay slept
between consecutive attempts; the handler then emits one sell-failed
notification and leaves the position in the ledger, and a position is
removed exactly on a successful sell or a zero-balance skip. -/
theorem sell_retry_policy (env : Env) (st : BotState) (whale h tk : String)
    (hb : env.tokenBalance tk ≠ 0)
    (h1 : isFailAttempt (env.sellAttempt tk 1) = true)
    (h2 : isFailAttempt (env.sellAttempt tk 2) = true)
    (h3 : isFailAttempt (env.sellAttempt tk 3) = true) :
    ((executeCopySell env tk 1 3 5000).1.status = SellStatus.failed) ∧
    ((executeCopySell env tk 1 3 5000).2.countP isSellSubmitEff = 3) ∧
    ((executeCopySell env tk 1 3 5000).2.countP (fun e => e == Effect.sleepMs 5000) = 2) ∧
    ((processSells env whale h st [tk]).1 = st) ∧
    ((processSells env whale h st [tk]).2.countP isSellFailedNotifEff = 1) ∧
    (∀ (env2 : Env) (st2 : BotState) (tk2 : String),
        ((executeCopySell env2 tk2 1 3 5000).1.status = SellStatus.ok ∨
         (executeCopySell env2 tk2 1 3 5000).1.status = SellStatus.skipped) →
        (processSells env2 whale h st2 [tk2]).1 = removePosition st2 whale tk2) := by
  obtain ⟨hst, heff⟩ := executeCopySell_retries env tk hb h1 h2 h3
  refine ⟨hst, ?_, ?_, ?_, ?_, ?_⟩
  · rw [heff]; rfl
  · rw [heff]; rfl
  · simp [processSells, hst]
  · simp [processSells, hst, heff]
    rfl
  · intro env2 st2 tk2 hok
    rcases hok with hok | hok <;> simp [processSells, hok]

/-- C8 witness: a concrete always-reverting sell fails after the three
attempts and the position stays in the ledger. -/
theorem sell_retry_policy_witness :
    (executeCopySell envFailSell ("0xtok01") 1 3 5000).1.status = SellStatus.failed ∧
    (processSells envFailSell ("0xwh01") ("0xh1") stOnePos [("0xtok01")]).1 = stOnePos := by
  have hh := sell_retry_policy envFailSell stOnePos ("0xwh01") ("0xh1") ("0xtok01")
      (by decide) (by decide) (by decide) (by decide)
  exact ⟨hh.1, hh.2.2.2.1⟩

theorem nonceRun_primed (cp : Nat) : ∀ (k n : Nat),
    (nonceRun cp k ⟨some n⟩).1 = (List.range k).map (fun i => (n + i, false)) := by
  intro k
  induction k with
  | zero => intro n; rfl
  | succ k ih =>
    intro n
    simp only [nonceRun, getNextNonce]
    rw [ih (n + 1)]
    have hmap : (List.range (k + 1)).map (fun i => (n + i, false))
        = (n, false) :: (List.range k).map (fun i => (n + 1 + i, false)) := by
      rw [List.range_succ_eq_map, List.map_cons, List.map_map]
      refine congrArg₂ List.cons (by simp) (List.map_congr_left fun i _ => ?_)
      show (n + (i + 1), false) = (n + 1 + i, false)
      have hh : n + (i + 1) = n + 1 + i := by omega
      rw [hh]
    rw [hmap]

/-- C9: the nonce sequencer primes its cached counter from the chain's
pending nonce exactly once — the first call performs the network fetch and
every later call returns consecutive, strictly increasing values with no
further round trip; a submission failing with a nonce-related error (stale
nonce, replacement underpriced, or a message mentioning the nonce) discards
the cached counter, a non-nonce error leaves it in place, and the next call
after a reset re-primes from the chain. -/
theorem nonce_sequencer (cp k : Nat) (s : NonceState) (e : JsError) :
    ((nonceRun cp (k + 1) ⟨none⟩).1
        = (cp, true) :: (List.range k).map (fun i => (cp + 1 + i, false))) ∧
    (isNonceError e = true →
        (sendAndWaitNonce cp s (SendOutcome.errored e)).2 = ⟨none⟩) ∧
    (isNonceError e = false →
        (sendAndWaitNonce cp s (SendOutcome.errored e)).2 = (getNextNonce cp s).2.1) ∧
    (getNextNonce cp ⟨none⟩ = (cp, ⟨some (cp + 1)⟩, true)) := by
  refine ⟨?_, ?_, ?_, rfl⟩
  · simp only [nonceRun, getNextNonce]
    rw [nonceRun_primed cp k (cp + 1)]
  · intro he
    simp [sendAndWaitNonce, he]
  · intro he
    simp [sendAndWaitNonce, he]

/-- C9 witness: three calls primed at chain nonce 7 return 7, 8, 9 with a
single fetch, and a nonce-mentioning error resets the cache. -/
theorem nonce_sequencer_witness :
    (nonceRun 7 3 ⟨none⟩).1 = [(7, true), (8, false), (9, false)] ∧
    (sendAndWaitNonce 7 ⟨some 9⟩
        (SendOutcome.errored ⟨none, some ("nonce too low")⟩)).2 = ⟨none⟩ := by
  have hh := nonce_sequencer 7 2 ⟨some 9⟩ ⟨none, some ("nonce too low")⟩
  exact ⟨hh.1.trans (by decide), hh.2.1 (by decide)⟩
